import Mathlib

/-!
Verification of the Bayesian change-point inference core of the
brent-change-point-analysis repository.

The development shallowly embeds the code of
src/modeling/model_runner.py, src/modeling/diagnostics.py and
src/dashboard/backend/routes/model_routes.py:

- machine floats are modelled by the inductive type F (a rational value,
  a signed infinity, or NaN), with numpy's non-raising arithmetic;
- the segment-assignment primitive is the left-insertion-point semantics
  of numpy/theano searchsorted (the default side);
- fallible Python code (raise statements, uncaught AttributeError or
  IndexError) is modelled with Except / explicit outcome types;
- the external numerical primitives the repository treats as opaque
  (the MCMC sampler, the ArviZ hdi routine) are passed in as function
  parameters, exactly as the spec directs.
-/

/-! ## Segment assignment primitive

Source: model_runner.py lines 124-125 and 183-184,
  segment_idx = pm.math.searchsorted(changepoints_sorted, np.arange(n)).
numpy/theano searchsorted with the default side, for a sorted array, returns
the left insertion point: the first index i with v <= a[i]. -/

def searchsortedLeft : List ℤ → ℤ → ℕ
  | [], _ => 0
  | c :: cs, v => if v ≤ c then 0 else searchsortedLeft cs v + 1

/-- Segment id of every time index t in [0, n), as the models compute it. -/
def segmentIdx (cps : List ℤ) (n : ℕ) : List ℕ :=
  (List.range n).map (fun t => searchsortedLeft cps (Int.ofNat t))

/-- Modelled from the spec: the segment-assignment rule of section 4.1 as the
spec words it, namely all observations before the first change point belong to
segment 0 and observations at or after change point i but before change point
i+1 belong to segment i+1; that is, the count of change points at or below t. -/
def specSegmentId (cps : List ℤ) (t : ℤ) : ℕ :=
  cps.countP (fun c => decide (c ≤ t))

lemma searchsortedLeft_le_length (cps : List ℤ) (t : ℤ) :
    searchsortedLeft cps t ≤ cps.length := by
  induction cps with
  | nil => simp [searchsortedLeft]
  | cons c cs ih =>
    by_cases h : t ≤ c
    · simp [searchsortedLeft, h]
    · simp only [searchsortedLeft, if_neg h, List.length_cons]
      omega

lemma searchsortedLeft_mono (cps : List ℤ) {t u : ℤ} (htu : t ≤ u) :
    searchsortedLeft cps t ≤ searchsortedLeft cps u := by
  induction cps with
  | nil => simp [searchsortedLeft]
  | cons c cs ih =>
    by_cases hu : u ≤ c
    · have ht : t ≤ c := le_trans htu hu
      simp [searchsortedLeft, ht, hu]
    · by_cases ht : t ≤ c
      · simp only [searchsortedLeft, if_pos ht, if_neg hu]
        omega
      · simp only [searchsortedLeft, if_neg ht, if_neg hu]
        omega

lemma searchsortedLeft_eq_countP (cps : List ℤ) (hs : cps.Sorted (· ≤ ·))
    (t : ℤ) : searchsortedLeft cps t = cps.countP (fun c => decide (c < t)) := by
  induction cps with
  | nil => simp [searchsortedLeft]
  | cons c cs ih =>
    rw [List.sorted_cons] at hs
    obtain ⟨hc, hcs⟩ := hs
    by_cases h : t ≤ c
    · have hnone : ∀ x ∈ c :: cs, ¬ x < t := by
        intro x hx
        rcases List.mem_cons.mp hx with rfl | hx
        · omega
        · have := hc x hx; omega
      have : (c :: cs).countP (fun c => decide (c < t)) = 0 := by
        rw [List.countP_eq_zero]
        intro x hx
        simpa using hnone x hx
      simp [searchsortedLeft, h, this]
    · have hct : c < t := by omega
      rw [List.countP_cons]
      simp [searchsortedLeft, if_neg h, ih hcs, hct]

/-! ## Float model

Machine floats as used by prepare_data (model_runner.py lines 241-253):
a rational value, a signed infinity, or NaN.  Arithmetic follows IEEE /
numpy semantics for the operations the code performs; numpy division never
raises (0/0 gives NaN, nonzero/0 gives a signed infinity).  Signed zero is
collapsed to 0, which only shows in the sign of an infinity produced by a
division by zero and is irrelevant to every property proved below. -/

inductive F where
  | nan : F
  | inf : Bool → F
  | val : ℚ → F
deriving DecidableEq, Repr

def F.isnan : F → Bool
  | .nan => true
  | _ => false

def F.neg : F → F
  | .nan => .nan
  | .inf b => .inf (!b)
  | .val q => .val (-q)

def F.add : F → F → F
  | .nan, _ => .nan
  | _, .nan => .nan
  | .inf a, .inf b => if a = b then .inf a else .nan
  | .inf a, .val _ => .inf a
  | .val _, .inf b => .inf b
  | .val a, .val b => .val (a + b)

def F.sub (x y : F) : F := F.add x (F.neg y)

def F.mul : F → F → F
  | .nan, _ => .nan
  | _, .nan => .nan
  | .inf a, .inf b => .inf (a != b)
  | .inf a, .val q => if q = 0 then .nan else .inf (a != decide (q < 0))
  | .val q, .inf b => if q = 0 then .nan else .inf (b != decide (q < 0))
  | .val a, .val b => .val (a * b)

def F.div : F → F → F
  | .nan, _ => .nan
  | _, .nan => .nan
  | .inf _, .inf _ => .nan
  | .inf a, .val q => .inf (a != decide (q < 0))
  | .val _, .inf _ => .val 0
  | .val a, .val b =>
      if b = 0 then (if a = 0 then .nan else .inf (decide (a < 0)))
      else .val (a / b)

/-- Sum of a float array, as numpy computes it (NaN and infinities propagate). -/
def F.sum (xs : List F) : F := xs.foldr F.add (F.val 0)

/-- Mean along an axis: numpy mean, the sum divided by the length (NaN on an
empty array, via 0/0). -/
def F.mean (xs : List F) : F := F.div (F.sum xs) (F.val (xs.length : ℚ))

/-- The square of numpy std with the default ddof 0: the mean of the squared
deviations from the mean. -/
def F.variance (xs : List F) : F :=
  F.mean (xs.map (fun x => F.mul (F.sub x (F.mean xs)) (F.sub x (F.mean xs))))

/-- The float s is the IEEE square root of the float x: for a finite
nonnegative x the nonnegative root, NaN for NaN, infinity for infinity. -/
def FSqrt : F → F → Prop
  | .val v, s => ∃ q : ℚ, s = .val q ∧ 0 ≤ q ∧ q * q = v
  | .nan, s => s = .nan
  | .inf b, s => s = if b then F.nan else F.inf false

/-- The float sigma is exactly numpy std(column) (population standard
deviation, the square root of the variance). -/
def IsStd (xs : List F) (sigma : F) : Prop := FSqrt (F.variance xs) sigma

/-! ## Data preparation

Source: ModelRunner.prepare_data, model_runner.py lines 241-253.  The
covariate matrix is held column-major (one list per event column), matching
the axis-0 mean/std of the source.  The standard deviation of each column is
passed alongside, constrained by IsStd, because a square root is generally
irrational; every theorem quantifies over all values satisfying IsStd. -/

/-- One column of X_events = (X_events - X_events.mean(axis=0)) / X_events.std(axis=0). -/
def standardizeColumn (c : List F) (sigma : F) : List F :=
  c.map (fun x => F.div (F.sub x (F.mean c)) sigma)

def standardizeCols (cols : List (List F)) (sigmas : List F) : List (List F) :=
  List.zipWith standardizeColumn cols sigmas

/-- Row mask valid_idx = ~(np.isnan(y) | np.isnan(X_events).any(axis=1)),
evaluated at row t of the standardized matrix. -/
def validRow (y : List F) (scols : List (List F)) (t : ℕ) : Bool :=
  !(y.getD t F.nan).isnan && scols.all (fun c => !(c.getD t F.nan).isnan)

/-- Indices of the retained (non-dropped) rows, in order. -/
def retainedIdx (y : List F) (scols : List (List F)) : List ℕ :=
  (List.range y.length).filter (validRow y scols)

/-- ModelRunner.prepare_data: standardize the covariate columns, then drop
every row in which the target or any standardized covariate is NaN.  Returns
the retained target values and the retained rows of each standardized column. -/
def prepareData (y : List F) (cols : List (List F)) (sigmas : List F) :
    List F × List (List F) :=
  let scols := standardizeCols cols sigmas
  let idx := retainedIdx y scols
  (idx.map (fun t => y.getD t F.nan),
   scols.map (fun c => idx.map (fun t => c.getD t F.nan)))

/-! ## Exact rational counterparts used to state the numerical invariants. -/

def meanQ (xs : List ℚ) : ℚ := xs.sum / (xs.length : ℚ)

def varianceQ (xs : List ℚ) : ℚ :=
  meanQ (xs.map (fun x => (x - meanQ xs) * (x - meanQ xs)))

/-! ## Posterior collections, fit results and errors -/

/-- Uncaught Python exceptions that the embedded code can surface. -/
inductive PyError where
  | valueError (msg : String)
  | attributeError (attr : String)
  | indexError
deriving DecidableEq, Repr

/-- The posterior sample collection of one fit (az.InferenceData): for every
chain and draw, the realized sorted change points and event coefficients. -/
structure Trace where
  changepoints_sorted : List (List (List ℤ))
  event_coefficients : List (List (List ℚ))
deriving DecidableEq, Repr

/-- An az.waic result: the WAIC score and its standard error. -/
structure Waic where
  waic : ℚ
  waic_se : ℚ
deriving DecidableEq, Repr

/-- One entry of ModelRunner.results: a trace together with its WAIC. -/
structure FitResult where
  trace : Trace
  waic : Waic
deriving DecidableEq, Repr

/-- The ModelRunner.results mapping, keyed by model identity; a missing key
is None. -/
structure Results where
  basic_model : Option FitResult
  event_model : Option FitResult
deriving DecidableEq, Repr

/-- Mean over the chain and draw axes (posterior.values.mean(axis=(0,1))):
pool all draws of all chains and average each parameter dimension. -/
def axisMean (samples : List (List (List ℚ))) : List ℚ :=
  let pooled := samples.flatten
  (List.range (pooled.headD []).length).map
    (fun j => meanQ (pooled.map (fun row => row.getD j 0)))

def axisMeanZ (samples : List (List (List ℤ))) : List ℚ :=
  axisMean (samples.map (fun ch => ch.map (fun row => row.map (fun z : ℤ => (z : ℚ)))))

/-! ## Base model class

Source: BrentChangePointModel, model_runner.py lines 17-80.  The PyMC3 model
object built by build_model is represented by the data that determines it;
the sampler (pm.sample) and the ArviZ hdi routine are opaque external
primitives, passed as function parameters. -/

/-- The structure a build_model call constructs: the observed series, the
optional event covariate matrix, and the change-point count. -/
structure PModel where
  y : List ℚ
  x_events : Option (List (List ℚ))
  n_changepoints : ℕ
deriving DecidableEq, Repr

/-- The mutable state of a BrentChangePointModel instance: after init both
the model and the trace are None. -/
structure BrentCPState where
  n_changepoints : ℕ
  model : Option PModel
  trace : Option Trace
deriving DecidableEq, Repr

def BrentCPState.init (n_changepoints : ℕ) : BrentCPState :=
  { n_changepoints := n_changepoints, model := none, trace := none }

/-- BasicChangePointModel.build_model (lines 88-134): records the model
structure determined by y and stores it on the instance. -/
def buildModelBasic (s : BrentCPState) (y : List ℚ) : BrentCPState × PModel :=
  let m : PModel := { y := y, x_events := none, n_changepoints := s.n_changepoints }
  ({ s with model := some m }, m)

/-- EventCovariateModel.build_model (lines 142-196): additionally records the
event covariate matrix. -/
def buildModelEvent (s : BrentCPState) (y : List ℚ) (xev : List (List ℚ)) :
    BrentCPState × PModel :=
  let m : PModel := { y := y, x_events := some xev, n_changepoints := s.n_changepoints }
  ({ s with model := some m }, m)

/-- BrentChangePointModel.fit (lines 38-62): raises if no model has been
built, otherwise invokes the sampler and stores the trace. -/
def BrentCPState.fit (s : BrentCPState) (samples tune chains : ℕ)
    (sampler : PModel → ℕ → ℕ → ℕ → Trace) :
    Except PyError (BrentCPState × Trace) :=
  match s.model with
  | none => .error (.valueError "Model not defined. Call build_model() first.")
  | some m =>
      let tr := sampler m samples tune chains
      .ok ({ s with trace := some tr }, tr)

/-- BrentChangePointModel.get_changepoints (lines 64-80): raises if no fit has
completed, otherwise returns the posterior-mean change points and their HDI. -/
def BrentCPState.get_changepoints (s : BrentCPState)
    (hdi : Trace → List (ℚ × ℚ)) : Except PyError (List ℚ × List (ℚ × ℚ)) :=
  match s.trace with
  | none => .error (.valueError "Model not fitted. Call fit() first.")
  | some tr => .ok (axisMeanZ tr.changepoints_sorted, hdi tr)

/-! ## Model comparison

Source: ModelRunner.compare_models, model_runner.py lines 325-349, and the
status route preference rule, model_routes.py line 80. -/

structure Comparison where
  basic_waic : ℚ
  basic_waic_se : ℚ
  event_waic : ℚ
  event_waic_se : ℚ
  waic_difference : ℚ
  preferred_model : String
deriving DecidableEq, Repr

/-- ModelRunner.compare_models: raises unless both fits are present in the
results mapping, otherwise builds the comparison dictionary. -/
def compareModels (results : Results) : Except PyError Comparison :=
  match results.basic_model, results.event_model with
  | some basicFit, some eventFit =>
      .ok { basic_waic := basicFit.waic.waic
            basic_waic_se := basicFit.waic.waic_se
            event_waic := eventFit.waic.waic
            event_waic_se := eventFit.waic.waic_se
            waic_difference := basicFit.waic.waic - eventFit.waic.waic
            preferred_model :=
              if eventFit.waic.waic < basicFit.waic.waic
              then "event_model" else "basic_model" }
  | _, _ => .error (.valueError "Both models must be fitted before comparison.")

/-- The preference rule of the status route (model_routes.py line 80). -/
def statusPreferred (basicWaic eventWaic : ℚ) : String :=
  if eventWaic < basicWaic then "event_model" else "basic_model"

/-! ## Dashboard routes

Source: src/dashboard/backend/routes/model_routes.py.  A route either
returns a value, returns an error-JSON response with status 500, or lets a
Python exception escape to the framework. -/

inductive RouteOut (α : Type) where
  | ok (a : α)
  | errJson (msg : String)
  | exn (e : PyError)
deriving DecidableEq, Repr

/-- The shape of the model_comparison dictionary built at model_routes.py
lines 293-298: N/A placeholder entries are None here; the preferred_model
comparison against float(inf) always prefers the event model when the basic
fit is absent, a finite WAIC being below infinity.  The route recomputes the
event WAIC from the event trace and model via
ModelDiagnostics.generate_summary_report, which is az.waic of the same trace
and model that produced the stored score. -/
structure DiagComparison where
  basic_model_waic : Option ℚ
  event_model_waic : ℚ
  waic_difference : Option ℚ
  preferred_model : String
deriving DecidableEq, Repr

/-- The significance flag of get_event_coefficients (model_routes.py line
163): hdi_lower > 0 or hdi_upper < 0. -/
def significant (hdiLower hdiUpper : ℚ) : Bool :=
  decide (0 < hdiLower) || decide (hdiUpper < 0)

/-- One row of the event-coefficient listing. -/
structure Coef where
  feature : String
  mean : ℚ
  hdi_lower : ℚ
  hdi_upper : ℚ
  significant : Bool
deriving DecidableEq, Repr

/-! ## ModelRunner instance state

Source: ModelRunner, model_runner.py lines 199-365.  A Python instance is a
record of the attributes the class ever assigns; init (lines 204-217)
assigns data, basic_model, event_model and results, and no method of the
class ever assigns an attribute named event_cols, which is therefore an
Option that every operation leaves at none. -/

structure RunnerState where
  basic_model : Option BrentCPState
  event_model : Option BrentCPState
  results : Results
  event_cols : Option (List String)
deriving DecidableEq, Repr

/-- The state ModelRunner.init produces (the loaded data frame itself plays
no role in any property below). -/
def initRunner : RunnerState :=
  { basic_model := none, event_model := none
    results := { basic_model := none, event_model := none }
    event_cols := none }

/-- The public operations of ModelRunner.  The trace and WAIC a run produces
come from the opaque sampler and az.waic, so they parameterize the op. -/
inductive RunnerOp where
  | runBasicModel (m : BrentCPState) (fit : FitResult)
  | runEventModel (m : BrentCPState) (fit : FitResult)
  | prepareDataOp
  | compareModelsOp
  | saveResultsOp
deriving DecidableEq, Repr

/-- Attribute effect of each ModelRunner method: run_basic_model (lines
255-288) assigns basic_model and the basic_model results entry,
run_event_model (lines 290-323) assigns event_model and the event_model
results entry; prepare_data, compare_models and save_results assign no
attribute at all. -/
def applyOp (s : RunnerState) : RunnerOp → RunnerState
  | .runBasicModel m fit =>
      { s with basic_model := some m
               results := { s.results with basic_model := some fit } }
  | .runEventModel m fit =>
      { s with event_model := some m
               results := { s.results with event_model := some fit } }
  | .prepareDataOp => s
  | .compareModelsOp => s
  | .saveResultsOp => s

/-- Every state a ModelRunner can reach: init followed by any sequence of
operations. -/
def runnerAfter (ops : List RunnerOp) : RunnerState :=
  ops.foldl applyOp initRunner

/-- The get_event_coefficients route (model_routes.py lines 137-166): after
the fitted-results guard it reads model_runner_instance.event_cols (line
150) and builds the coefficient listing from the event trace; reading an
attribute the instance does not have raises AttributeError. -/
def getEventCoefficients (hdi : Trace → List (ℚ × ℚ))
    (modelResults : Option Results) (runner : RunnerState) :
    RouteOut (List Coef) :=
  match modelResults with
  | none => .errJson "Event model not fitted or results not loaded."
  | some res =>
    match res.event_model with
    | none => .errJson "Event model not fitted or results not loaded."
    | some efit =>
      match runner.event_cols with
      | none => .exn (.attributeError "event_cols")
      | some names =>
          let means := axisMean efit.trace.event_coefficients
          let hdis := hdi efit.trace
          .ok ((List.range names.length).map (fun i =>
            let l := (hdis.getD i (0, 0)).1
            let u := (hdis.getD i (0, 0)).2
            { feature := names.getD i ""
              mean := means.getD i 0
              hdi_lower := l
              hdi_upper := u
              significant := significant l u }))

/-- The get_model_diagnostics route (model_routes.py lines 267-302).  After
the fitted-results guard (line 270) the route, in order: reads
model_runner_instance.event_model.model (line 274), which raises
AttributeError when the runner instance holds no event model (NoneType has
no such attribute); calls prepare_data (line 277, assigns nothing and
succeeds on the documented frame); reads model_runner_instance.event_cols
(line 278), which raises AttributeError whenever that attribute was never
assigned; and only then builds the diagnostics output whose model_comparison
block (lines 293-298) falls back to N/A entries and a float(inf) comparison
when the basic fit is absent. -/
def getModelDiagnosticsComparison (modelResults : Option Results)
    (runner : RunnerState) : RouteOut DiagComparison :=
  match modelResults with
  | none => .errJson "Event model not fitted or results not loaded."
  | some res =>
    match res.event_model with
    | none => .errJson "Event model not fitted or results not loaded."
    | some efit =>
      match runner.event_model with
      | none => .exn (.attributeError "model")
      | some _ =>
        match runner.event_cols with
        | none => .exn (.attributeError "event_cols")
        | some _ =>
            .ok { basic_model_waic := res.basic_model.map (fun b => b.waic.waic)
                  event_model_waic := efit.waic.waic
                  waic_difference :=
                    res.basic_model.map (fun b => b.waic.waic - efit.waic.waic)
                  preferred_model :=
                    match res.basic_model with
                    | some b => if efit.waic.waic < b.waic.waic
                                then "event_model" else "basic_model"
                    | none => "event_model" }

/-! ## Change-point date lookup

Source: get_change_points, model_routes.py lines 110-123.  The posterior
HDI bounds on a change-point index are rounded to integers and looked up in
the data frame with iloc; pandas iloc accepts positions in [-len, len) with
the usual Python negative wrap and raises IndexError outside that range. -/

def iloc (dates : List ℚ) (i : ℤ) : Except PyError ℚ :=
  if 0 ≤ i ∧ i < (dates.length : ℤ) then .ok (dates.getD i.toNat 0)
  else if -(dates.length : ℤ) ≤ i ∧ i < 0 then
    .ok (dates.getD ((dates.length : ℤ) + i).toNat 0)
  else .error .indexError

/-- Line 122: hdi_lower_date = data.iloc[max(0, hdi_lower_idx)]. -/
def hdiLowerDate (dates : List ℚ) (hdiLowerIdx : ℤ) : Except PyError ℚ :=
  iloc dates (max 0 hdiLowerIdx)

/-- Line 123: hdi_upper_date = data.iloc[min(len(data)-1, hdi_upper_idx)]. -/
def hdiUpperDate (dates : List ℚ) (hdiUpperIdx : ℤ) : Except PyError ℚ :=
  iloc dates (min ((dates.length : ℤ) - 1) hdiUpperIdx)

/-! ## Claims about segment assignment -/

/-- Claim C1, counterexample: with n = 2 and the single change point at index
1, the model assigns the observation at t = 1 (which equals the change point)
to segment 0, while the spec rule of section 4.1 places it in segment 1; so
the searchsorted assignment does not satisfy the spec rule even on a sorted,
in-range change-point sequence. -/
theorem segment_assignment_spec_rule_counterexample :
    List.Sorted (· ≤ ·) ([1] : List ℤ) ∧
    (0 : ℤ) ≤ 1 ∧ (1 : ℤ) ≤ 2 - 1 ∧
    segmentIdx [1] 2 = [0, 0] ∧
    (List.range 2).map (fun t => specSegmentId [1] (Int.ofNat t)) = [0, 1] ∧
    segmentIdx [1] 2 ≠ (List.range 2).map (fun t => specSegmentId [1] (Int.ofNat t)) := by
  refine ⟨?_, ?_, ?_, ?_, ?_, ?_⟩ <;> decide

/-- Claim C1 (amended): the searchsorted segment assignment uses the left
insertion point, so for a non-decreasing change-point sequence the segment id
of t is the number of change points strictly less than t; in particular an
observation whose index equals a change point belongs to the segment before
that change point, not the one after it. -/
theorem segment_assignment_left_insertion (cps : List ℤ)
    (hs : cps.Sorted (· ≤ ·)) (t : ℤ) (n : ℕ) :
    searchsortedLeft cps t = cps.countP (fun c => decide (c < t)) ∧
    segmentIdx cps n
      = (List.range n).map (fun u => cps.countP (fun c => decide (c < Int.ofNat u))) := by
  refine ⟨searchsortedLeft_eq_countP cps hs t, ?_⟩
  unfold segmentIdx
  exact List.map_congr_left (fun u _ => searchsortedLeft_eq_countP cps hs (Int.ofNat u))

/-- Witness for the amended claim C1 at the change points [1] with n = 2. -/
theorem segment_assignment_left_insertion_witness :
    searchsortedLeft [1] 1 = List.countP (fun c => decide (c < (1 : ℤ))) [1] ∧
    segmentIdx [1] 2
      = (List.range 2).map (fun u => List.countP (fun c => decide (c < Int.ofNat u)) [1]) :=
  segment_assignment_left_insertion [1] (by decide) 1 2

/-- Claim C2: the segment assignment over [0, n) only produces segment ids in
{0, ..., m}, is monotone non-decreasing in t, and the time indices mapped to
any one segment id form a contiguous run; hence the m+1 (possibly empty)
segments partition [0, n). -/
theorem segment_assignment_partition (cps : List ℤ) (n : ℕ) (t u v : ℤ) :
    searchsortedLeft cps t ≤ cps.length ∧
    (t ≤ u → searchsortedLeft cps t ≤ searchsortedLeft cps u) ∧
    (t ≤ u → u ≤ v → searchsortedLeft cps t = searchsortedLeft cps v →
      searchsortedLeft cps u = searchsortedLeft cps t) ∧
    (segmentIdx cps n).length = n ∧
    (∀ s ∈ segmentIdx cps n, s ≤ cps.length) := by
  refine ⟨searchsortedLeft_le_length cps t, fun h => searchsortedLeft_mono cps h,
    ?_, by unfold segmentIdx; rw [List.length_map, List.length_range], ?_⟩
  · intro htu huv heq
    have h1 := searchsortedLeft_mono cps htu
    have h2 := searchsortedLeft_mono cps huv
    omega
  · intro s hs
    simp only [segmentIdx, List.mem_map] at hs
    obtain ⟨w, _, rfl⟩ := hs
    exact searchsortedLeft_le_length cps _

/-- Witness for claim C2 at the change points [3] with n = 4. -/
theorem segment_assignment_partition_witness :
    searchsortedLeft [3] 2 ≤ ([3] : List ℤ).length ∧
    searchsortedLeft [3] 2 ≤ searchsortedLeft [3] 5 ∧
    searchsortedLeft [3] 2 = searchsortedLeft [3] 2 ∧
    (segmentIdx [3] 4).length = 4 ∧
    (∀ s ∈ segmentIdx [3] 4, s ≤ ([3] : List ℤ).length) :=
  ⟨(segment_assignment_partition [3] 4 2 5 7).1,
   (segment_assignment_partition [3] 4 2 5 7).2.1 (by norm_num),
   (segment_assignment_partition [3] 4 2 2 2).2.2.1 le_rfl le_rfl rfl,
   (segment_assignment_partition [3] 4 2 5 7).2.2.2.1,
   (segment_assignment_partition [3] 4 2 5 7).2.2.2.2⟩

/-! ## Claims about significance and model comparison -/

/-- Claim C3: the significance flag of the event-coefficient listing is true
exactly when zero lies strictly outside the reported HDI, and an HDI with a
bound exactly equal to zero is never flagged significant. -/
theorem significance_flag_iff (l u : ℚ) :
    (significant l u = true ↔ ¬ (l ≤ 0 ∧ 0 ≤ u)) ∧
    (l ≤ u → (l = 0 ∨ u = 0) → significant l u = false) := by
  constructor
  · simp only [significant, Bool.or_eq_true, decide_eq_true_eq, not_and_or, not_le]
  · rintro hlu (rfl | rfl) <;>
      simp only [significant, Bool.or_eq_false_iff, decide_eq_false_iff_not, not_lt] <;>
      constructor <;> linarith

/-- Witness for claim C3 at the HDI [0, 1]. -/
theorem significance_flag_iff_witness :
    (significant 0 1 = true ↔ ¬ ((0 : ℚ) ≤ 0 ∧ (0 : ℚ) ≤ 1)) ∧
    significant 0 1 = false :=
  ⟨(significance_flag_iff 0 1).1,
   (significance_flag_iff 0 1).2 (by norm_num) (Or.inl rfl)⟩

/-- Claim C4: whenever both fits are present, compare_models succeeds and its
verdict is event_model exactly when the event WAIC is strictly lower, is
basic_model otherwise (so ties prefer basic), its difference field is the
basic WAIC minus the event WAIC, and the status route applies the same rule. -/
theorem compare_models_verdict (results : Results) (b e : FitResult)
    (hb : results.basic_model = some b) (he : results.event_model = some e) :
    ∃ c, compareModels results = .ok c ∧
      (c.preferred_model = "event_model" ↔ e.waic.waic < b.waic.waic) ∧
      (c.preferred_model = "basic_model" ↔ ¬ e.waic.waic < b.waic.waic) ∧
      c.waic_difference = b.waic.waic - e.waic.waic ∧
      c.preferred_model = statusPreferred b.waic.waic e.waic.waic := by
  refine ⟨_, by rw [compareModels, hb, he], ?_, ?_, rfl, by rw [statusPreferred]⟩
  · by_cases h : e.waic.waic < b.waic.waic <;> simp [h]
  · by_cases h : e.waic.waic < b.waic.waic <;> simp [h]

/-- Witness for claim C4 on a results mapping holding a basic fit with WAIC 2
and an event fit with WAIC 1. -/
theorem compare_models_verdict_witness :
    ∃ c, compareModels
        { basic_model := some { trace := { changepoints_sorted := [], event_coefficients := [] },
                                waic := { waic := 2, waic_se := 0 } }
          event_model := some { trace := { changepoints_sorted := [], event_coefficients := [] },
                                waic := { waic := 1, waic_se := 0 } } } = .ok c ∧
      (c.preferred_model = "event_model" ↔ (1 : ℚ) < 2) ∧
      (c.preferred_model = "basic_model" ↔ ¬ (1 : ℚ) < 2) ∧
      c.waic_difference = (2 : ℚ) - 1 ∧
      c.preferred_model = statusPreferred 2 1 :=
  compare_models_verdict
    { basic_model := some { trace := { changepoints_sorted := [], event_coefficients := [] },
                            waic := { waic := 2, waic_se := 0 } }
      event_model := some { trace := { changepoints_sorted := [], event_coefficients := [] },
                            waic := { waic := 1, waic_se := 0 } } }
    { trace := { changepoints_sorted := [], event_coefficients := [] },
      waic := { waic := 2, waic_se := 0 } }
    { trace := { changepoints_sorted := [], event_coefficients := [] },
      waic := { waic := 1, waic_se := 0 } }
    rfl rfl

/-! ## Claims about missing-fit handling -/

lemma applyOp_event_cols (s : RunnerState) (op : RunnerOp) :
    (applyOp s op).event_cols = s.event_cols := by
  cases op <;> rfl

lemma foldl_applyOp_event_cols (ops : List RunnerOp) :
    ∀ s : RunnerState, (ops.foldl applyOp s).event_cols = s.event_cols := by
  induction ops with
  | nil => intro s; rfl
  | cons op rest ih =>
    intro s
    rw [List.foldl_cons, ih (applyOp s op), applyOp_event_cols]

/-- Claim C6, counterexample: with the basic fit absent, an event fit present
in the loaded results, and the runner in a reachable state that has run the
event model, the diagnostics route raises AttributeError reading event_cols
(line 278) before its comparison block — an error it raises on every
guard-passing invocation regardless of which fits exist — rather than the
missing-input error the claim asserts; no comparison output is produced. -/
theorem diagnostics_missing_input_error_counterexample :
    getModelDiagnosticsComparison
      (some { basic_model := none
              event_model := some
                { trace := { changepoints_sorted := [], event_coefficients := [] }
                  waic := { waic := 3, waic_se := 1 } } })
      (runnerAfter
        [.runEventModel (BrentCPState.init 5)
          { trace := { changepoints_sorted := [], event_coefficients := [] }
            waic := { waic := 3, waic_se := 1 } }])
      = .exn (.attributeError "event_cols") ∧
    ((RouteOut.exn (.attributeError "event_cols") : RouteOut DiagComparison)
      ≠ .errJson "Event model not fitted or results not loaded.") ∧
    PyError.attributeError "event_cols"
      ≠ .valueError "Both models must be fitted before comparison." := by
  refine ⟨rfl, ?_, ?_⟩ <;> decide

/-- Claim C6 (amended): whenever either fit is absent, no code path produces
a comparison output: ModelRunner.compare_models raises a missing-input
ValueError, and the diagnostics endpoint returns the missing-input error
response when the event fit is absent.  But when only the basic fit is
absent the endpoint does not signal a missing-input error: on every
reachable runner state it raises an unconditional AttributeError (reading
event_model.model at line 274 or the never-assigned event_cols at line 278)
before its comparison block, whose N/A fallback at lines 293-298 is
unreachable. -/
theorem compare_missing_fit_behavior (results r : Results) (efit : FitResult)
    (ops : List RunnerOp) :
    ((results.basic_model = none ∨ results.event_model = none) →
      compareModels results
        = .error (.valueError "Both models must be fitted before comparison.")) ∧
    (r.event_model = none →
      getModelDiagnosticsComparison (some r) (runnerAfter ops)
        = .errJson "Event model not fitted or results not loaded.") ∧
    (r.event_model = some efit → r.basic_model = none →
      (∀ c : DiagComparison,
        getModelDiagnosticsComparison (some r) (runnerAfter ops) ≠ .ok c) ∧
      (getModelDiagnosticsComparison (some r) (runnerAfter ops)
          = .exn (.attributeError "model") ∨
       getModelDiagnosticsComparison (some r) (runnerAfter ops)
          = .exn (.attributeError "event_cols"))) := by
  refine ⟨?_, ?_, ?_⟩
  · rintro (h | h) <;>
      rcases hb : results.basic_model with _ | b <;>
      rcases he : results.event_model with _ | e <;>
      simp_all [compareModels]
  · intro h
    simp [getModelDiagnosticsComparison, h]
  · intro he _
    have hec : (runnerAfter ops).event_cols = none :=
      (foldl_applyOp_event_cols ops initRunner).trans rfl
    rcases hem : (runnerAfter ops).event_model with _ | em
    · exact ⟨fun c => by simp [getModelDiagnosticsComparison, he, hem],
        Or.inl (by simp [getModelDiagnosticsComparison, he, hem])⟩
    · exact ⟨fun c => by simp [getModelDiagnosticsComparison, he, hem, hec],
        Or.inr (by simp [getModelDiagnosticsComparison, he, hem, hec])⟩

/-- Witness for the amended claim C6 on concrete results mappings and the
freshly initialized runner. -/
theorem compare_missing_fit_behavior_witness :
    compareModels { basic_model := none, event_model := none }
      = .error (.valueError "Both models must be fitted before comparison.") ∧
    getModelDiagnosticsComparison
      (some { basic_model := none, event_model := none }) (runnerAfter [])
      = .errJson "Event model not fitted or results not loaded." ∧
    (∀ c : DiagComparison,
      getModelDiagnosticsComparison
        (some { basic_model := none
                event_model := some
                  { trace := { changepoints_sorted := [], event_coefficients := [] }
                    waic := { waic := 3, waic_se := 1 } } })
        (runnerAfter []) ≠ .ok c) ∧
    (getModelDiagnosticsComparison
        (some { basic_model := none
                event_model := some
                  { trace := { changepoints_sorted := [], event_coefficients := [] }
                    waic := { waic := 3, waic_se := 1 } } })
        (runnerAfter []) = .exn (.attributeError "model") ∨
     getModelDiagnosticsComparison
        (some { basic_model := none
                event_model := some
                  { trace := { changepoints_sorted := [], event_coefficients := [] }
                    waic := { waic := 3, waic_se := 1 } } })
        (runnerAfter []) = .exn (.attributeError "event_cols")) :=
  ⟨(compare_missing_fit_behavior { basic_model := none, event_model := none }
      { basic_model := none, event_model := none }
      { trace := { changepoints_sorted := [], event_coefficients := [] }
        waic := { waic := 3, waic_se := 1 } } []).1 (Or.inl rfl),
   (compare_missing_fit_behavior { basic_model := none, event_model := none }
      { basic_model := none, event_model := none }
      { trace := { changepoints_sorted := [], event_coefficients := [] }
        waic := { waic := 3, waic_se := 1 } } []).2.1 rfl,
   ((compare_missing_fit_behavior { basic_model := none, event_model := none }
      { basic_model := none
        event_model := some
          { trace := { changepoints_sorted := [], event_coefficients := [] }
            waic := { waic := 3, waic_se := 1 } } }
      { trace := { changepoints_sorted := [], event_coefficients := [] }
        waic := { waic := 3, waic_se := 1 } } []).2.2 rfl rfl).1,
   ((compare_missing_fit_behavior { basic_model := none, event_model := none }
      { basic_model := none
        event_model := some
          { trace := { changepoints_sorted := [], event_coefficients := [] }
            waic := { waic := 3, waic_se := 1 } } }
      { trace := { changepoints_sorted := [], event_coefficients := [] }
        waic := { waic := 3, waic_se := 1 } } []).2.2 rfl rfl).2⟩

/-! ## Claims about the HDI date lookup -/

/-- Claim C7, counterexample: the lower HDI lookup index is not clamped above
at n-1 and the upper one is not clamped below at 0, so an above-range lower
bound (or a far-below-range upper bound) makes the date lookup raise
IndexError instead of being clamped into [0, n-1]. -/
theorem hdi_date_clamp_counterexample :
    hdiLowerDate [(7 : ℚ)] 5 = .error .indexError ∧
    hdiUpperDate [(7 : ℚ), 8] (-5) = .error .indexError := by
  constructor <;> rfl

/-- Claim C7 (amended): the lower HDI lookup index is clamped below at 0 only
and the upper one is clamped above at n-1 only; each lookup stays in bounds
provided the raw bound does not overshoot on its unclamped side (lower bound
at most n-1, upper bound at least 0), which holds for every HDI bound taken
from this model's change-point samples since those lie in [0, n-1]. -/
theorem hdi_date_clamp_one_sided (dates : List ℚ) (i : ℤ)
    (hn : 1 ≤ dates.length) :
    (0 : ℤ) ≤ max 0 i ∧
    min ((dates.length : ℤ) - 1) i ≤ (dates.length : ℤ) - 1 ∧
    (i ≤ (dates.length : ℤ) - 1 → ∃ d, hdiLowerDate dates i = .ok d) ∧
    (0 ≤ i → ∃ d, hdiUpperDate dates i = .ok d) := by
  have hn' : (1 : ℤ) ≤ (dates.length : ℤ) := by exact_mod_cast hn
  refine ⟨le_max_left 0 i, min_le_left _ _, ?_, ?_⟩
  · intro hi
    unfold hdiLowerDate iloc
    rw [if_pos ⟨le_max_left 0 i, by omega⟩]
    exact ⟨_, rfl⟩
  · intro hi
    unfold hdiUpperDate iloc
    rw [if_pos ⟨by omega, by omega⟩]
    exact ⟨_, rfl⟩

/-- Witness for the amended claim C7 on a two-row frame with bound index 1. -/
theorem hdi_date_clamp_one_sided_witness :
    (0 : ℤ) ≤ max 0 1 ∧
    min (((([(3 : ℚ), 4]).length) : ℤ) - 1) 1 ≤ ((([(3 : ℚ), 4]).length : ℤ)) - 1 ∧
    (∃ d, hdiLowerDate [(3 : ℚ), 4] 1 = .ok d) ∧
    (∃ d, hdiUpperDate [(3 : ℚ), 4] 1 = .ok d) := by
  obtain ⟨h1, h2, h3, h4⟩ := hdi_date_clamp_one_sided [(3 : ℚ), 4] 1 (by norm_num)
  exact ⟨h1, h2, h3 (by norm_num), h4 (by norm_num)⟩

/-! ## Claims about the model lifecycle guards -/

/-- Claim C8: requesting a fit before build_model raises a ValueError without
the sampler ever being consulted (the result is the same error for every
sampler), and requesting change-point extraction before a fit has completed
likewise raises; neither case is silently defaulted. -/
theorem fit_and_extraction_guards (s : BrentCPState) (samples tune chains : ℕ)
    (sampler : PModel → ℕ → ℕ → ℕ → Trace) (hdi : Trace → List (ℚ × ℚ)) :
    (s.model = none →
      s.fit samples tune chains sampler
        = .error (.valueError "Model not defined. Call build_model() first.")) ∧
    (s.trace = none →
      s.get_changepoints hdi
        = .error (.valueError "Model not fitted. Call fit() first.")) := by
  constructor
  · intro h
    unfold BrentCPState.fit
    rw [h]
  · intro h
    unfold BrentCPState.get_changepoints
    rw [h]

/-- Witness for claim C8 on a freshly initialized model instance. -/
theorem fit_and_extraction_guards_witness :
    (BrentCPState.init 5).fit 2000 1000 2
        (fun _ _ _ _ => { changepoints_sorted := [], event_coefficients := [] })
      = .error (.valueError "Model not defined. Call build_model() first.") ∧
    (BrentCPState.init 5).get_changepoints (fun _ => [])
      = .error (.valueError "Model not fitted. Call fit() first.") :=
  ⟨(fit_and_extraction_guards (BrentCPState.init 5) 2000 1000 2
      (fun _ _ _ _ => { changepoints_sorted := [], event_coefficients := [] })
      (fun _ => [])).1 rfl,
   (fit_and_extraction_guards (BrentCPState.init 5) 2000 1000 2
      (fun _ _ _ _ => { changepoints_sorted := [], event_coefficients := [] })
      (fun _ => [])).2 rfl⟩

/-! ## Claims about the missing event_cols attribute -/

/-- Claim C10: no reachable ModelRunner state (fitted or not) carries an
event_cols attribute, so every invocation of the event-coefficient route that
passes the fitted-results guard reaches the attribute read of line 150 and
raises AttributeError. -/
theorem event_cols_attribute_error (ops : List RunnerOp)
    (hdi : Trace → List (ℚ × ℚ)) (res : Results) (efit : FitResult)
    (he : res.event_model = some efit) :
    (runnerAfter ops).event_cols = none ∧
    getEventCoefficients hdi (some res) (runnerAfter ops)
      = .exn (.attributeError "event_cols") := by
  have h : (runnerAfter ops).event_cols = none :=
    (foldl_applyOp_event_cols ops initRunner).trans rfl
  refine ⟨h, ?_⟩
  simp [getEventCoefficients, he, h]

/-- Witness for claim C10: the runner that ran both models (so the event model
has been fitted) still raises AttributeError from the coefficient listing. -/
theorem event_cols_attribute_error_witness :
    (runnerAfter
      [.runBasicModel (BrentCPState.init 5)
          { trace := { changepoints_sorted := [], event_coefficients := [] }
            waic := { waic := 2, waic_se := 0 } },
       .runEventModel (BrentCPState.init 5)
          { trace := { changepoints_sorted := [], event_coefficients := [] }
            waic := { waic := 1, waic_se := 0 } }]).event_cols = none ∧
    getEventCoefficients (fun _ => [])
      (some { basic_model := none
              event_model := some
                { trace := { changepoints_sorted := [], event_coefficients := [] }
                  waic := { waic := 1, waic_se := 0 } } })
      (runnerAfter
        [.runBasicModel (BrentCPState.init 5)
            { trace := { changepoints_sorted := [], event_coefficients := [] }
              waic := { waic := 2, waic_se := 0 } },
         .runEventModel (BrentCPState.init 5)
            { trace := { changepoints_sorted := [], event_coefficients := [] }
              waic := { waic := 1, waic_se := 0 } }])
      = .exn (.attributeError "event_cols") :=
  event_cols_attribute_error
    [.runBasicModel (BrentCPState.init 5)
        { trace := { changepoints_sorted := [], event_coefficients := [] }
          waic := { waic := 2, waic_se := 0 } },
     .runEventModel (BrentCPState.init 5)
        { trace := { changepoints_sorted := [], event_coefficients := [] }
          waic := { waic := 1, waic_se := 0 } }]
    (fun _ => [])
    { basic_model := none
      event_model := some
        { trace := { changepoints_sorted := [], event_coefficients := [] }
          waic := { waic := 1, waic_se := 0 } } }
    { trace := { changepoints_sorted := [], event_coefficients := [] }
      waic := { waic := 1, waic_se := 0 } }
    rfl

/-! ## Helper lemmas for the numerical claims -/

lemma fsum_cons (x : F) (l : List F) : F.sum (x :: l) = F.add x (F.sum l) := rfl

lemma fsum_replicate_val (n : ℕ) (q : ℚ) :
    F.sum (List.replicate n (F.val q)) = F.val (n * q) := by
  induction n with
  | zero => simp [F.sum]
  | succ k ih =>
    rw [List.replicate_succ, fsum_cons, ih]
    show F.val (q + k * q) = F.val ((k + 1 : ℕ) * q)
    push_cast
    ring_nf

lemma fmean_replicate_val (n : ℕ) (hn : n ≠ 0) (q : ℚ) :
    F.mean (List.replicate n (F.val q)) = F.val q := by
  have hq : ((n : ℚ)) ≠ 0 := Nat.cast_ne_zero.mpr hn
  unfold F.mean
  rw [List.length_replicate, fsum_replicate_val]
  show F.div (F.val (n * q)) (F.val n) = F.val q
  simp only [F.div, if_neg hq]
  congr 1
  field_simp

lemma fsub_val_self (q : ℚ) : F.sub (F.val q) (F.val q) = F.val 0 := by
  simp [F.sub, F.neg, F.add]

lemma fvariance_replicate_val (n : ℕ) (hn : n ≠ 0) (q : ℚ) :
    F.variance (List.replicate n (F.val q)) = F.val 0 := by
  unfold F.variance
  rw [fmean_replicate_val n hn q, List.map_replicate, fsub_val_self]
  have hmul : F.mul (F.val 0) (F.val 0) = F.val 0 := by simp [F.mul]
  rw [hmul, fmean_replicate_val n hn 0]

lemma getD_replicate_self {α : Type} (n t : ℕ) (a : α) :
    (List.replicate n a).getD t a = a := by
  induction n generalizing t with
  | zero => simp [List.getD]
  | succ k ih =>
    cases t with
    | zero => simp [List.replicate_succ]
    | succ u =>
      rw [List.replicate_succ]
      simp only [List.getD_cons_succ]
      exact ih u

/-! ## Claim about zero-variance standardization -/

/-- Claim C9: a constant (zero-empirical-variance) event covariate column
does not make data preparation raise: numpy standardization divides by the
zero standard deviation without error, every entry of that standardized
column becomes NaN via 0/0, and prepare_data degrades gracefully by dropping
every row, returning an empty target and empty covariate columns. -/
theorem zero_variance_standardization_graceful
    (y : List F) (cols : List (List F)) (sigmas : List F) (j : ℕ) (q : ℚ)
    (hj : j < cols.length)
    (hk : sigmas.length = cols.length)
    (hn : y.length ≠ 0)
    (hcol : cols.getD j [] = List.replicate y.length (F.val q))
    (hstd : IsStd (cols.getD j []) (sigmas.getD j F.nan)) :
    standardizeColumn (cols.getD j []) (sigmas.getD j F.nan)
      = List.replicate y.length F.nan ∧
    retainedIdx y (standardizeCols cols sigmas) = [] ∧
    (prepareData y cols sigmas).1 = [] ∧
    (∀ c ∈ (prepareData y cols sigmas).2, c = []) := by
  -- The column standard deviation is exactly zero.
  have hvar : F.variance (cols.getD j []) = F.val 0 := by
    rw [hcol]; exact fvariance_replicate_val y.length hn q
  have hsig : sigmas.getD j F.nan = F.val 0 := by
    unfold IsStd at hstd
    rw [hvar] at hstd
    obtain ⟨s, hs, hs0, hss⟩ := hstd
    have : s = 0 := by nlinarith
    rw [hs, this]
  -- Every entry of the standardized column is NaN via 0/0.
  have hscol : standardizeColumn (cols.getD j []) (sigmas.getD j F.nan)
      = List.replicate y.length F.nan := by
    rw [hsig, hcol]
    unfold standardizeColumn
    rw [fmean_replicate_val y.length hn q, List.map_replicate, fsub_val_self]
    have : F.div (F.val 0) (F.val 0) = F.nan := by simp [F.div]
    rw [this]
  -- That column is, entrywise, among the standardized columns.
  have hjlen : j < (standardizeCols cols sigmas).length := by
    unfold standardizeCols
    rw [List.length_zipWith]
    omega
  have hmem : List.replicate y.length F.nan ∈ standardizeCols cols sigmas := by
    have hget : (standardizeCols cols sigmas).get ⟨j, hjlen⟩
        = standardizeColumn (cols.get ⟨j, hj⟩) (sigmas.get ⟨j, by omega⟩) := by
      unfold standardizeCols
      simp [List.get_eq_getElem, List.getElem_zipWith]
    have hgd : cols.get ⟨j, hj⟩ = cols.getD j [] := by
      rw [List.getD_eq_getElem cols [] hj]; rfl
    have hgd2 : sigmas.get ⟨j, by omega⟩ = sigmas.getD j F.nan := by
      rw [List.getD_eq_getElem sigmas F.nan (by omega : j < sigmas.length)]; rfl
    rw [hgd, hgd2, hscol] at hget
    rw [← hget]
    exact List.get_mem _ j hjlen
  -- Hence no row is valid and everything is dropped.
  have hinvalid : ∀ t : ℕ, validRow y (standardizeCols cols sigmas) t = false := by
    intro t
    unfold validRow
    have hall : (standardizeCols cols sigmas).all
        (fun c => !(c.getD t F.nan).isnan) = false := by
      rw [List.all_eq_false]
      refine ⟨List.replicate y.length F.nan, hmem, ?_⟩
      rw [getD_replicate_self]
      decide
    rw [hall, Bool.and_false]
  have hret : retainedIdx y (standardizeCols cols sigmas) = [] := by
    unfold retainedIdx
    rw [List.filter_eq_nil_iff]
    intro t _
    rw [hinvalid t]
    exact Bool.false_ne_true
  refine ⟨hscol, hret, ?_, ?_⟩
  · show (retainedIdx y (standardizeCols cols sigmas)).map _ = []
    rw [hret]; rfl
  · intro c hc
    simp only [prepareData] at hc
    rw [hret] at hc
    simp only [List.map_nil, List.mem_map] at hc
    obtain ⟨_, _, rfl⟩ := hc
    rfl

/-- Witness for claim C9: a single-row frame whose only covariate column is
the constant 5. -/
theorem zero_variance_standardization_graceful_witness :
    standardizeColumn ([[F.val 5]].getD 0 []) ([F.val 0].getD 0 F.nan)
      = List.replicate 1 F.nan ∧
    retainedIdx [F.val 1] (standardizeCols [[F.val 5]] [F.val 0]) = [] ∧
    (prepareData [F.val 1] [[F.val 5]] [F.val 0]).1 = [] ∧
    (∀ c ∈ (prepareData [F.val 1] [[F.val 5]] [F.val 0]).2, c = []) :=
  zero_variance_standardization_graceful [F.val 1] [[F.val 5]] [F.val 0] 0 5
    (by norm_num) rfl (by norm_num) rfl
    (by
      have hvar : F.variance [F.val 5] = F.val 0 := by
        norm_num [F.variance, F.mean, F.sum, F.add, F.div, F.sub, F.neg, F.mul]
      show IsStd [F.val 5] (F.val 0)
      unfold IsStd
      rw [hvar]
      exact ⟨0, rfl, le_refl 0, by norm_num⟩)

/-! ## Bridging lemmas: float computations on finite data are exact -/

lemma fsum_map_val (xs : List ℚ) : F.sum (xs.map F.val) = F.val xs.sum := by
  induction xs with
  | nil => rfl
  | cons x l ih =>
    rw [List.map_cons, fsum_cons, ih]
    show F.val (x + l.sum) = F.val ((x :: l).sum)
    rw [List.sum_cons]

lemma fmean_map_val (xs : List ℚ) (h : xs ≠ []) :
    F.mean (xs.map F.val) = F.val (meanQ xs) := by
  have hl0 : 0 < xs.length := List.length_pos.mpr h
  have hq : ((xs.length : ℚ)) ≠ 0 := by exact_mod_cast hl0.ne'
  unfold F.mean meanQ
  rw [List.length_map, fsum_map_val]
  simp only [F.div, if_neg hq]

lemma fsub_val_val (a b : ℚ) : F.sub (F.val a) (F.val b) = F.val (a - b) := by
  simp [F.sub, F.neg, F.add, sub_eq_add_neg]

lemma fdiv_val_val (a b : ℚ) (hb : b ≠ 0) :
    F.div (F.val a) (F.val b) = F.val (a / b) := by
  simp [F.div, hb]

lemma standardizeColumn_map_val (xs : List ℚ) (s : ℚ) (h : xs ≠ []) (hs : s ≠ 0) :
    standardizeColumn (xs.map F.val) (F.val s)
      = (xs.map (fun x => (x - meanQ xs) / s)).map F.val := by
  unfold standardizeColumn
  rw [fmean_map_val xs h, List.map_map, List.map_map]
  apply List.map_congr_left
  intro x _
  show F.div (F.sub (F.val x) (F.val (meanQ xs))) (F.val s)
      = F.val ((x - meanQ xs) / s)
  rw [fsub_val_val, fdiv_val_val _ _ hs]

lemma fvariance_map_val (xs : List ℚ) (h : xs ≠ []) :
    F.variance (xs.map F.val) = F.val (varianceQ xs) := by
  unfold F.variance varianceQ
  rw [fmean_map_val xs h, List.map_map]
  have hmap : xs.map ((fun x => F.mul (F.sub x (F.val (meanQ xs)))
        (F.sub x (F.val (meanQ xs)))) ∘ F.val)
      = (xs.map (fun x => (x - meanQ xs) * (x - meanQ xs))).map F.val := by
    rw [List.map_map]
    apply List.map_congr_left
    intro x _
    show F.mul (F.sub (F.val x) (F.val (meanQ xs)))
        (F.sub (F.val x) (F.val (meanQ xs)))
      = F.val ((x - meanQ xs) * (x - meanQ xs))
    rw [fsub_val_val]
    rfl
  rw [hmap, fmean_map_val _ (by simpa using h)]

/-! ## Exact facts about standardization over the rationals -/

lemma sum_map_sub_const (xs : List ℚ) (c : ℚ) :
    (xs.map (fun x => x - c)).sum = xs.sum - xs.length * c := by
  induction xs with
  | nil => simp
  | cons x l ih =>
    simp only [List.map_cons, List.sum_cons, ih, List.length_cons]
    push_cast
    ring

lemma sum_map_div_const (xs : List ℚ) (f : ℚ → ℚ) (s : ℚ) :
    (xs.map (fun x => f x / s)).sum = (xs.map f).sum / s := by
  induction xs with
  | nil => simp
  | cons x l ih => simp [ih, add_div]

lemma meanQ_map_div (xs : List ℚ) (f : ℚ → ℚ) (s : ℚ) :
    meanQ (xs.map (fun x => f x / s)) = meanQ (xs.map f) / s := by
  unfold meanQ
  rw [List.length_map, List.length_map, sum_map_div_const, div_right_comm]

lemma meanQ_centered (xs : List ℚ) (h : xs ≠ []) :
    meanQ (xs.map (fun x => x - meanQ xs)) = 0 := by
  have hl0 : 0 < xs.length := List.length_pos.mpr h
  have hl : ((xs.length : ℚ)) ≠ 0 := by exact_mod_cast hl0.ne'
  unfold meanQ
  rw [List.length_map, sum_map_sub_const]
  have hz : xs.sum - (xs.length : ℚ) * (xs.sum / (xs.length : ℚ)) = 0 := by
    field_simp
  rw [hz, zero_div]

lemma meanQ_standardized (xs : List ℚ) (h : xs ≠ []) (s : ℚ) :
    meanQ (xs.map (fun x => (x - meanQ xs) / s)) = 0 := by
  rw [meanQ_map_div xs (fun x => x - meanQ xs) s, meanQ_centered xs h, zero_div]

lemma varianceQ_standardized (xs : List ℚ) (h : xs ≠ []) (s : ℚ) (hs : s ≠ 0)
    (hsv : s * s = varianceQ xs) :
    varianceQ (xs.map (fun x => (x - meanQ xs) / s)) = 1 := by
  have hm0 : meanQ (xs.map (fun x => (x - meanQ xs) / s)) = 0 :=
    meanQ_standardized xs h s
  unfold varianceQ
  rw [hm0]
  simp only [sub_zero]
  rw [List.map_map]
  have hcomp : ((fun y => y * y) ∘ fun x => (x - meanQ xs) / s)
      = fun x => ((x - meanQ xs) * (x - meanQ xs)) / (s * s) := by
    funext x
    simp only [Function.comp_apply]
    rw [div_mul_div_comm]
  rw [hcomp, meanQ_map_div xs (fun x => (x - meanQ xs) * (x - meanQ xs)) (s * s)]
  show varianceQ xs / (s * s) = 1
  rw [← hsv]
  exact div_self (mul_ne_zero hs hs)

lemma sum_nonneg_all_zero (xs : List ℚ) (h : ∀ x ∈ xs, 0 ≤ x)
    (hz : xs.sum = 0) : ∀ x ∈ xs, x = 0 := by
  induction xs with
  | nil => intro x hx; simp at hx
  | cons a l ih =>
    have ha : 0 ≤ a := h a (List.mem_cons_self a l)
    have hl : 0 ≤ l.sum :=
      List.sum_nonneg fun x hx => h x (List.mem_cons_of_mem a hx)
    rw [List.sum_cons] at hz
    intro x hx
    rcases List.mem_cons.mp hx with rfl | hx
    · linarith
    · exact ih (fun z hz => h z (List.mem_cons_of_mem a hz)) (by linarith) x hx

lemma varianceQ_zero_const (xs : List ℚ) (h : xs ≠ []) (hv : varianceQ xs = 0) :
    ∀ x ∈ xs, x = meanQ xs := by
  have hl0 : 0 < xs.length := List.length_pos.mpr h
  have hl : ((xs.length : ℚ)) ≠ 0 := by exact_mod_cast hl0.ne'
  have hv' : meanQ (xs.map (fun x => (x - meanQ xs) * (x - meanQ xs))) = 0 := hv
  have hsum : (xs.map (fun x => (x - meanQ xs) * (x - meanQ xs))).sum = 0 := by
    unfold meanQ at hv'
    rw [List.length_map] at hv'
    rcases div_eq_zero_iff.mp hv' with h1 | h1
    · exact h1
    · exact absurd h1 hl
  intro x hx
  have hmem : (x - meanQ xs) * (x - meanQ xs)
      ∈ xs.map (fun x => (x - meanQ xs) * (x - meanQ xs)) :=
    List.mem_map_of_mem _ hx
  have hzero := sum_nonneg_all_zero _
    (by
      intro z hz
      obtain ⟨w, _, rfl⟩ := List.mem_map.mp hz
      exact mul_self_nonneg _) hsum _ hmem
  have := mul_self_eq_zero.mp hzero
  linarith

lemma exists_map_val (c : List F) (h : ∀ x ∈ c, ∃ q, x = F.val q) :
    ∃ xs : List ℚ, c = xs.map F.val := by
  induction c with
  | nil => exact ⟨[], rfl⟩
  | cons a l ih =>
    obtain ⟨q, hq⟩ := h a (List.mem_cons_self a l)
    obtain ⟨xs, hxs⟩ := ih (fun x hx => h x (List.mem_cons_of_mem a hx))
    exact ⟨q :: xs, by rw [List.map_cons, ← hq, ← hxs]⟩

lemma map_getD_range {α : Type} (c : List α) (d : α) :
    (List.range c.length).map (fun t => c.getD t d) = c := by
  induction c with
  | nil => rfl
  | cons a l ih =>
    rw [List.length_cons, List.range_succ_eq_map, List.map_cons, List.map_map]
    have h2 : ((fun t => (a :: l).getD t d) ∘ Nat.succ) = (fun t => l.getD t d) :=
      rfl
    rw [h2, ih]
    rfl

/-! ## Claim about the standardization invariant -/

/-- Claim C5 (amended): provided the covariate values are finite and no row
is dropped (the retained index set is all of [0, n)), every covariate column
returned by prepare_data has empirical mean within 1e-9 of 0 (indeed exactly
0) and empirical standard deviation within 1e-9 of 1 (indeed exactly 1) over
the retained rows.  When rows are dropped the invariant can fail, because the
code standardizes before dropping. -/
theorem prepare_data_standardization_no_drop
    (y : List F) (cols : List (List F)) (sigmas : List F)
    (hk : sigmas.length = cols.length)
    (hlen : ∀ c ∈ cols, c.length = y.length)
    (hn : y.length ≠ 0)
    (hfin : ∀ c ∈ cols, ∀ x ∈ c, ∃ q, x = F.val q)
    (hstd : ∀ j, j < cols.length → IsStd (cols.getD j []) (sigmas.getD j F.nan))
    (hnodrop : retainedIdx y (standardizeCols cols sigmas)
        = List.range y.length) :
    ∀ c ∈ (prepareData y cols sigmas).2,
      (∃ q, F.mean c = F.val q ∧ |q - 0| ≤ 1 / 1000000000) ∧
      (∀ s : ℚ, IsStd c (F.val s) → |s - 1| ≤ 1 / 1000000000) := by
  intro c hc
  have hc' : c ∈ (standardizeCols cols sigmas).map
      (fun col => (retainedIdx y (standardizeCols cols sigmas)).map
        (fun t => col.getD t F.nan)) := hc
  rw [hnodrop] at hc'
  obtain ⟨scol, hscolmem, rfl⟩ := List.mem_map.mp hc'
  obtain ⟨j, hjlt, hjget⟩ := List.getElem_of_mem hscolmem
  have hjcols : j < cols.length := by
    have h := hjlt
    unfold standardizeCols at h
    rw [List.length_zipWith] at h
    omega
  have hjsig : j < sigmas.length := by omega
  have hscol_eq : scol
      = standardizeColumn (cols.getD j []) (sigmas.getD j F.nan) := by
    rw [← hjget]
    unfold standardizeCols
    rw [List.getElem_zipWith, List.getD_eq_getElem cols [] hjcols,
      List.getD_eq_getElem sigmas F.nan hjsig]
  have hcolmem : cols.getD j [] ∈ cols := by
    rw [List.getD_eq_getElem cols [] hjcols]
    exact List.getElem_mem hjcols
  obtain ⟨xs, hxs⟩ := exists_map_val (cols.getD j []) (hfin _ hcolmem)
  have hxslen : xs.length = y.length := by
    have h := hlen (cols.getD j []) hcolmem
    rw [hxs, List.length_map] at h
    exact h
  have hxs_ne : xs ≠ [] := by
    intro h0
    rw [h0] at hxslen
    exact hn hxslen.symm
  have hstdj := hstd j hjcols
  unfold IsStd at hstdj
  rw [hxs, fvariance_map_val xs hxs_ne] at hstdj
  obtain ⟨s₀, hs₀eq, hs₀nonneg, hs₀sq⟩ := hstdj
  -- The column standard deviation cannot be zero: a zero-variance column
  -- would standardize to all-NaN and drop every row, against hnodrop.
  have hs₀ne : s₀ ≠ 0 := by
    intro h0
    have hv0 : varianceQ xs = 0 := by rw [← hs₀sq, h0, mul_zero]
    have hconst := varianceQ_zero_const xs hxs_ne hv0
    obtain ⟨x0, xs', hxs0⟩ := List.exists_cons_of_ne_nil hxs_ne
    have h0mem : (0 : ℕ) ∈ retainedIdx y (standardizeCols cols sigmas) := by
      rw [hnodrop]
      exact List.mem_range.mpr (Nat.pos_of_ne_zero hn)
    have hvalid : validRow y (standardizeCols cols sigmas) 0 = true :=
      (List.mem_filter.mp h0mem).2
    have hscol0 : scol.getD 0 F.nan = F.nan := by
      rw [hscol_eq, hxs]
      unfold standardizeColumn
      rw [hs₀eq, h0, fmean_map_val _ hxs_ne, hxs0, List.map_cons, List.map_cons]
      simp only [List.getD_cons_zero]
      rw [fsub_val_val]
      have hx0 : x0 - meanQ xs = 0 := by
        have := hconst x0 (by rw [hxs0]; exact List.mem_cons_self x0 xs')
        linarith
      rw [hxs0] at hx0
      rw [hx0]
      simp [F.div]
    have hfalse : (scol.getD 0 F.nan).isnan = false := by
      unfold validRow at hvalid
      rw [Bool.and_eq_true] at hvalid
      have hall := hvalid.2
      rw [List.all_eq_true] at hall
      have h := hall scol hscolmem
      simpa using h
    rw [hscol0] at hfalse
    exact absurd hfalse (by decide)
  -- With a nonzero standard deviation everything is exact rational algebra.
  have hscolv : scol = (xs.map (fun x => (x - meanQ xs) / s₀)).map F.val := by
    rw [hscol_eq, hxs, hs₀eq]
    exact standardizeColumn_map_val xs s₀ hxs_ne hs₀ne
  have hys_ne : xs.map (fun x => (x - meanQ xs) / s₀) ≠ [] := by
    simpa using hxs_ne
  have hyslen : scol.length = y.length := by
    rw [hscolv, List.length_map, List.length_map]
    exact hxslen
  have hc_eq : (List.range y.length).map (fun t => scol.getD t F.nan) = scol := by
    rw [← hyslen]
    exact map_getD_range scol F.nan
  rw [hc_eq, hscolv]
  constructor
  · refine ⟨0, ?_, by norm_num⟩
    rw [fmean_map_val _ hys_ne, meanQ_standardized xs hxs_ne s₀]
  · intro s hIs
    unfold IsStd at hIs
    rw [fvariance_map_val _ hys_ne,
      varianceQ_standardized xs hxs_ne s₀ hs₀ne hs₀sq] at hIs
    obtain ⟨q, hq, hq0, hq1⟩ := hIs
    have hsq : s = q := by injection hq
    have hqone : q = 1 := by
      rcases mul_self_eq_one_iff.mp hq1 with h | h
      · exact h
      · linarith
    rw [hsq, hqone]
    norm_num

/-- Claim C5, counterexample: the column [0, 0, 2, 2] has standard deviation
exactly 1, but because standardization runs before the NaN row drop, dropping
the fourth row (whose target is NaN) leaves the retained standardized column
[-1, -1, 1], whose empirical mean -1/3 is not within 1e-9 of 0. -/
theorem prepare_data_invariant_counterexample :
    IsStd [F.val 0, F.val 0, F.val 2, F.val 2] (F.val 1) ∧
    (prepareData [F.val 1, F.val 1, F.val 1, F.nan]
        [[F.val 0, F.val 0, F.val 2, F.val 2]] [F.val 1]).2
      = [[F.val (-1), F.val (-1), F.val 1]] ∧
    ¬ ∃ q, F.mean [F.val (-1), F.val (-1), F.val 1] = F.val q ∧
        |q - 0| ≤ 1 / 1000000000 := by
  refine ⟨?_, ?_, ?_⟩
  · have hvar : F.variance [F.val 0, F.val 0, F.val 2, F.val 2] = F.val 1 := by
      norm_num [F.variance, F.mean, F.sum, F.add, F.div, F.sub, F.neg, F.mul]
    unfold IsStd
    rw [hvar]
    exact ⟨1, rfl, by norm_num, by norm_num⟩
  · norm_num [prepareData, retainedIdx, validRow, standardizeCols,
      standardizeColumn, F.mean, F.sum, F.add, F.div, F.sub, F.neg, F.mul,
      F.isnan, List.range_succ, List.filter]
  · rintro ⟨q, hq, habs⟩
    have hm : F.mean [F.val (-1), F.val (-1), F.val 1] = F.val (-(1 / 3)) := by
      norm_num [F.mean, F.sum, F.add, F.div]
    rw [hm] at hq
    have hq' : q = -(1 / 3) := by
      injection hq with h
      exact h.symm
    rw [hq'] at habs
    rw [show (-(1 / 3 : ℚ) - 0) = -(1 / 3) by ring, abs_neg,
      abs_of_nonneg (by norm_num : (0 : ℚ) ≤ 1 / 3)] at habs
    norm_num at habs

/-- Witness for the amended claim C5: two retained rows, one covariate column
[0, 2] whose standard deviation is exactly 1, no NaN anywhere. -/
theorem prepare_data_standardization_no_drop_witness :
    (∃ q, F.mean [F.val (-1), F.val 1] = F.val q ∧ |q - 0| ≤ 1 / 1000000000) ∧
    (∀ s : ℚ, IsStd [F.val (-1), F.val 1] (F.val s) → |s - 1| ≤ 1 / 1000000000) :=
  prepare_data_standardization_no_drop
    [F.val 1, F.val 1] [[F.val 0, F.val 2]] [F.val 1]
    rfl
    (by
      intro c hc
      simp only [List.mem_singleton] at hc
      subst hc
      rfl)
    (by decide)
    (by
      intro c hc x hx
      simp only [List.mem_singleton] at hc
      subst hc
      rcases List.mem_cons.mp hx with rfl | hx
      · exact ⟨0, rfl⟩
      · rcases List.mem_cons.mp hx with rfl | hx
        · exact ⟨2, rfl⟩
        · simp at hx)
    (by
      intro j hj
      simp only [List.length_singleton] at hj
      have hj0 : j = 0 := by omega
      subst hj0
      have hvar : F.variance [F.val 0, F.val 2] = F.val 1 := by
        norm_num [F.variance, F.mean, F.sum, F.add, F.div, F.sub, F.neg, F.mul]
      show IsStd [F.val 0, F.val 2] (F.val 1)
      unfold IsStd
      rw [hvar]
      exact ⟨1, rfl, by norm_num, by norm_num⟩)
    (by
      norm_num [retainedIdx, validRow, standardizeCols, standardizeColumn,
        F.mean, F.sum, F.add, F.div, F.sub, F.neg, F.isnan, List.range_succ,
        List.filter])
    [F.val (-1), F.val 1]
    (by
      have hp : (prepareData [F.val 1, F.val 1] [[F.val 0, F.val 2]]
          [F.val 1]).2 = [[F.val (-1), F.val 1]] := by
        norm_num [prepareData, retainedIdx, validRow, standardizeCols,
          standardizeColumn, F.mean, F.sum, F.add, F.div, F.sub, F.neg, F.mul,
          F.isnan, List.range_succ, List.filter]
      rw [hp]
      exact List.mem_singleton.mpr rfl)
